import Mathlib

/-!
Shallow embedding of the temple-parties backend (FastAPI + Supabase) and
proofs about its request handlers.

Modelling conventions:
* The external relational store is modelled as in-memory lists of rows
  (`parties`, `party_going`, `user_profiles`); every Supabase call in the
  Python handlers (`select ... eq`, `insert`, `update ... eq`,
  `delete ... eq`, `count`) is embedded as the corresponding pure list
  operation.
* A handler `h` becomes a pure function returning the post-state of the
  store together with `Except HTTPError resp`; an `HTTPException` raised
  in the Python code becomes `Except.error` and the store component of the
  result is the state at the moment the exception was raised (the Python
  code raises before performing any later write).
* Python `date` values are embedded as proleptic-Gregorian ordinals
  (`Int`), exactly `date.toordinal()`; day 1 (0001-01-01) is a Monday, so
  `weekday d = (d - 1) % 7` matches `date.weekday()` (Monday = 0).
  Python `%` on a positive modulus agrees with Lean `Int.emod`.
* Python strings are embedded as `String`; `len` is `String.length`
  (both count code points), `str.lower` is `String.toLower`,
  `str.endswith` is suffix matching on the character sequence.
-/

namespace TempleParties

/-- HTTP error carried by a raised `HTTPException`. -/
structure HTTPError where
  status_code : Nat
  detail : String
deriving Repr, DecidableEq

/-! ## Rows of the external store -/

/-- A row of the `parties` table (the fields the handlers under
verification read or write). -/
structure Party where
  id : String
  going_count : Int
  created_by : String
  status : String
deriving Repr, DecidableEq

/-- A row of the `party_going` roster table: the pair
`(party_id, user_id)`; the table has no other payload. -/
abbrev GoingRow : Type := String × String

/-- A row of the `user_profiles` table. -/
structure UserProfile where
  id : String
  username : String
  is_admin : Bool
deriving Repr, DecidableEq

/-- The state of the external store as seen by the party handlers. -/
structure DB where
  parties : List Party
  party_going : List GoingRow
deriving Repr, DecidableEq

/-! ## Embedded Supabase query helpers -/

/-- `supabase.table("parties").select("*").eq("id", pid).execute().data`. -/
def selectParties (db : DB) (pid : String) : List Party :=
  db.parties.filter (fun p => p.id == pid)

/-- `result.data[0]` after the select above (`none` when `result.data` is
empty, which is what the `if not result.data` guards test). -/
def getParty (db : DB) (pid : String) : Option Party :=
  (selectParties db pid).head?

/-- `supabase.table("party_going").select("*").eq("party_id", pid).eq("user_id", uid)`. -/
def goingRows (db : DB) (pid uid : String) : List GoingRow :=
  db.party_going.filter (fun r => r.1 == pid && r.2 == uid)

/-- `select("*", count="exact").eq("party_id", pid)` on `party_going`:
the roster cardinality for one listing. -/
def rosterCount (db : DB) (pid : String) : Nat :=
  (db.party_going.filter (fun r => r.1 == pid)).length

/-- `supabase.table("party_going").insert({party_id, user_id})`. -/
def insertGoing (db : DB) (pid uid : String) : DB :=
  { db with party_going := db.party_going ++ [(pid, uid)] }

/-- `supabase.table("party_going").delete().eq("party_id", pid).eq("user_id", uid)`. -/
def deleteGoing (db : DB) (pid uid : String) : DB :=
  { db with party_going := db.party_going.filter (fun r => !(r.1 == pid && r.2 == uid)) }

/-- `supabase.table("parties").update({"going_count": n}).eq("id", pid)`. -/
def updateGoingCount (db : DB) (pid : String) (n : Int) : DB :=
  { db with parties := db.parties.map (fun p => if p.id == pid then { p with going_count := n } else p) }

/-- `supabase.table("parties").update({"status": st}).eq("id", pid)`. -/
def updateStatus (db : DB) (pid st : String) : DB :=
  { db with parties := db.parties.map (fun p => if p.id == pid then { p with status := st } else p) }

/-- `supabase.table("parties").delete().eq("id", pid)`. -/
def deletePartyRow (db : DB) (pid : String) : DB :=
  { db with parties := db.parties.filter (fun p => !(p.id == pid)) }

/-- `is_currently_going = len(going_result.data) > 0` in `toggle_going`. -/
def isMember (db : DB) (pid uid : String) : Bool :=
  !(goingRows db pid uid).isEmpty

/-! ## Handlers from `app/routers/parties.py` -/

/-- Response body of `POST /parties/{id}/going` (and the anonymous variant). -/
structure ToggleResponse where
  going : Bool
  goingCount : Int
deriving Repr, DecidableEq

/-- `toggle_going` (`POST /parties/{party_id}/going`): checks the listing
exists, deletes or inserts the caller's roster row, recomputes the count
from the roster, and writes it into `parties.going_count`. -/
def toggle_going (db : DB) (pid uid : String) : DB × Except HTTPError ToggleResponse :=
  if (selectParties db pid).isEmpty then
    (db, .error ⟨404, "Party not found"⟩)
  else
    let is_currently_going := isMember db pid uid
    let db1 := if is_currently_going then deleteGoing db pid uid else insertGoing db pid uid
    let new_count := rosterCount db1 pid
    (updateGoingCount db1 pid (new_count : Int), .ok ⟨!is_currently_going, (new_count : Int)⟩)

/-- `increment_going_anonymous` (`POST /parties/{party_id}/going/anonymous`):
reads the stored counter, treats its excess over the roster cardinality as
accumulated anonymous increments, and writes `tracked + anonymous + 1`. -/
def increment_going_anonymous (db : DB) (pid : String) : DB × Except HTTPError ToggleResponse :=
  match getParty db pid with
  | none => (db, .error ⟨404, "Party not found"⟩)
  | some p =>
    let tracked_count : Int := (rosterCount db pid : Int)
    let current_total : Int := p.going_count
    let anonymous_count : Int := max 0 (current_total - tracked_count)
    let new_count : Int := tracked_count + anonymous_count + 1
    (updateGoingCount db pid new_count, .ok ⟨true, new_count⟩)

/-- `delete_party` (`DELETE /parties/{party_id}`): 404 when absent, 403
when the caller is not the creator, else deletes the `parties` row. -/
def delete_party (db : DB) (pid uid : String) : DB × Except HTTPError String :=
  match getParty db pid with
  | none => (db, .error ⟨404, "Party not found"⟩)
  | some party =>
    if party.created_by != uid then
      (db, .error ⟨403, "You can only delete your own parties"⟩)
    else
      (deletePartyRow db pid, .ok "Party deleted")

/-! ## Handlers from `app/routers/admin.py` -/

/-- `approve_party` (`POST /admin/parties/{party_id}/approve`), after the
`require_admin` dependency has admitted the caller. -/
def approve_party (db : DB) (pid : String) : DB × Except HTTPError String :=
  match getParty db pid with
  | none => (db, .error ⟨404, "Party not found"⟩)
  | some party =>
    if party.status != "pending" then
      (db, .error ⟨400, "Party is not pending"⟩)
    else
      (updateStatus db pid "approved", .ok "Party approved")

/-- `reject_party` (`POST /admin/parties/{party_id}/reject`). -/
def reject_party (db : DB) (pid : String) : DB × Except HTTPError String :=
  match getParty db pid with
  | none => (db, .error ⟨404, "Party not found"⟩)
  | some party =>
    if party.status != "pending" then
      (db, .error ⟨400, "Party is not pending"⟩)
    else
      (updateStatus db pid "rejected", .ok "Party rejected")

/-! ## Handlers from `app/routers/auth.py` -/

/-- Python `str.endswith`: suffix match on the character sequence. -/
def pyEndsWith (s suffix : String) : Bool :=
  suffix.data.isSuffixOf s.data

/-- Python `str.lower`: lowercase every character (the emails involved are
ASCII, where Python's per-character lowercasing is `Char.toLower`). -/
def pyLower (s : String) : String :=
  ⟨s.data.map Char.toLower⟩

/-- Python `str.strip()`: drop whitespace from both ends. -/
def pyStrip (s : String) : String :=
  ⟨(((s.data.dropWhile Char.isWhitespace).reverse.dropWhile Char.isWhitespace).reverse)⟩

/-- `signup` (`POST /auth/signup`), on an email string that already passed
pydantic `EmailStr` validation. `Except.ok e` means validation passed and
`e` (the lowercased email) is handed to the identity oracle
(`supabase.auth.sign_in_with_otp`); `Except.error` means the handler
raised before any call to the identity service. -/
def signup (email : String) : Except HTTPError String :=
  let e := pyLower email
  if !(pyEndsWith e "@temple.edu") then
    .error ⟨400, "Only @temple.edu email addresses are allowed"⟩
  else
    .ok e

/-- Raw JSON body of a `POST /auth/set-username` request. Besides the
declared `username` field a malicious client may attach an `is_admin`
field; pydantic's `UserUpdate` model declares only `username`, so that
extra field is dropped at parse time. -/
structure RawSetUsernameBody where
  username : String
  is_admin : Option Bool
deriving Repr, DecidableEq

/-- The pydantic model `UserUpdate` from `app/models/user.py`: only the
`username` field. -/
structure UserUpdate where
  username : String
deriving Repr, DecidableEq

/-- Pydantic parsing of the raw request body into `UserUpdate`: keeps the
declared `username` field and drops everything else. -/
def parseUserUpdate (raw : RawSetUsernameBody) : UserUpdate :=
  { username := raw.username }

/-- `set_username` (`POST /auth/set-username`): rejects usernames of
length < 2 (there is no trimming and no upper bound in the code), then
updates the existing profile's username, or inserts a new profile with
`is_admin` hardcoded to `False`. -/
def set_username (profiles : List UserProfile) (uid : String) (data : UserUpdate) :
    List UserProfile × Except HTTPError String :=
  if data.username.length < 2 then
    (profiles, .error ⟨400, "Username must be at least 2 characters"⟩)
  else
    let existing := profiles.filter (fun p => p.id == uid)
    if !existing.isEmpty then
      (profiles.map (fun p => if p.id == uid then { p with username := data.username } else p),
       .ok data.username)
    else
      (profiles ++ [{ id := uid, username := data.username, is_admin := false }],
       .ok data.username)

/-! ## `get_current_weekend` from `app/routers/parties.py` -/

/-- `date.weekday()` on an ordinal: Monday = 0 .. Sunday = 6
(ordinal 1 = 0001-01-01 is a Monday). -/
def weekday (d : Int) : Int := (d - 1) % 7

/-- `get_current_weekend`: the Friday anchoring the current weekend.
`today + timedelta(days=days_until_friday)` with the Python body
translated clause by clause. -/
def get_current_weekend (today : Int) : Int :=
  let days_until_friday := (4 - weekday today) % 7
  let days_until_friday :=
    if weekday today > 4 then (4 - weekday today) % 7 - 7 else days_until_friday
  today + days_until_friday

/-! ## Concrete fixtures used by witness theorems -/

/-- A concrete approved listing. -/
def sampleParty : Party :=
  { id := "p1", going_count := 0, created_by := "u1", status := "approved" }

/-- A concrete pending listing. -/
def pendingParty : Party :=
  { id := "p2", going_count := 0, created_by := "u1", status := "pending" }

/-- A concrete store holding one approved and one pending listing and an
empty roster. -/
def sampleDB : DB :=
  { parties := [sampleParty, pendingParty], party_going := [] }

/-! ## General helper lemmas -/

theorem data_eq_imp {a b : String} (h : a.data = b.data) : a = b := by
  cases a; cases b; exact congrArg String.mk h

theorem parties_ifRosterOp (c : Bool) (db : DB) (pid uid : String) :
    (if c then deleteGoing db pid uid else insertGoing db pid uid).parties = db.parties := by
  cases c <;> rfl

theorem head_filter_map (l : List Party) (pid : String) (f : Party → Party)
    (hid : ∀ p, (f p).id = p.id) :
    ((l.map (fun p => if p.id == pid then f p else p)).filter (fun p => p.id == pid)).head?
      = ((l.filter (fun p => p.id == pid)).head?).map f := by
  induction l with
  | nil => rfl
  | cons q t ih =>
    by_cases hq : q.id = pid
    · simp [List.filter_cons, hq, hid]
    · simpa [List.filter_cons, hq, hid] using ih

theorem getParty_updateGoingCount (db : DB) (pid : String) (n : Int) :
    getParty (updateGoingCount db pid n) pid
      = (getParty db pid).map (fun p => { p with going_count := n }) :=
  head_filter_map db.parties pid _ (fun _ => rfl)

theorem getParty_updateStatus (db : DB) (pid st : String) :
    getParty (updateStatus db pid st) pid
      = (getParty db pid).map (fun p => { p with status := st }) :=
  head_filter_map db.parties pid _ (fun _ => rfl)

theorem getParty_deletePartyRow (db : DB) (pid : String) :
    getParty (deletePartyRow db pid) pid = none := by
  unfold getParty selectParties deletePartyRow
  rw [List.filter_filter]
  simp

theorem getParty_of_not_isEmpty {db : DB} {pid : String}
    (he : (selectParties db pid).isEmpty = false) :
    ∃ p, getParty db pid = some p := by
  cases hsp : selectParties db pid with
  | nil => rw [hsp] at he; exact absurd he (by simp)
  | cons a t => exact ⟨a, by unfold getParty; rw [hsp]; rfl⟩

theorem isEmpty_of_getParty {db : DB} {pid : String} {p : Party}
    (hp : getParty db pid = some p) :
    (selectParties db pid).isEmpty = false := by
  unfold getParty at hp
  cases hsp : selectParties db pid with
  | nil => rw [hsp] at hp; exact Option.noConfusion hp
  | cons a t => rfl

theorem goingRows_eq_nil {db : DB} {pid uid : String} (hm : isMember db pid uid = false) :
    goingRows db pid uid = [] := by
  cases hg : goingRows db pid uid with
  | nil => rfl
  | cons a t =>
    unfold isMember at hm
    rw [hg] at hm
    simp at hm

theorem mem_goingRows_eq {db : DB} {pid uid : String} {r : GoingRow}
    (h : r ∈ goingRows db pid uid) : r = (pid, uid) := by
  unfold goingRows at h
  obtain ⟨x, y⟩ := r
  obtain ⟨_, h2⟩ := List.mem_filter.mp h
  simp at h2
  rw [h2.1, h2.2]

theorem goingRows_singleton {db : DB} {pid uid : String}
    (hnd : db.party_going.Nodup) (hm : isMember db pid uid = true) :
    goingRows db pid uid = [(pid, uid)] := by
  have hsub : (goingRows db pid uid).Nodup := hnd.filter _
  cases hg : goingRows db pid uid with
  | nil =>
    unfold isMember at hm
    rw [hg] at hm
    simp at hm
  | cons a t =>
    have ha : a = (pid, uid) := mem_goingRows_eq (by rw [hg]; exact List.mem_cons_self a t)
    cases t with
    | nil => rw [ha]
    | cons b t2 =>
      exfalso
      have hb : b = (pid, uid) :=
        mem_goingRows_eq (by rw [hg]; exact List.mem_cons_of_mem a (List.mem_cons_self b t2))
      rw [hg, ha, hb] at hsub
      simp at hsub

theorem length_filter_split (l : List GoingRow) (pid uid : String) :
    (l.filter (fun r => r.1 == pid)).length
      = ((l.filter (fun r => !(r.1 == pid && r.2 == uid))).filter (fun r => r.1 == pid)).length
        + (l.filter (fun r => r.1 == pid && r.2 == uid)).length := by
  induction l with
  | nil => rfl
  | cons a t ih =>
    by_cases h1 : a.1 = pid <;> by_cases h2 : a.2 = uid <;>
      simp [List.filter_cons, h1, h2, ih] <;> omega

theorem rosterCount_congr {a b : DB} (h : a.party_going = b.party_going) (pid : String) :
    rosterCount a pid = rosterCount b pid := by
  unfold rosterCount
  rw [h]

theorem isMember_congr {a b : DB} (h : a.party_going = b.party_going) (pid uid : String) :
    isMember a pid uid = isMember b pid uid := by
  unfold isMember goingRows
  rw [h]

theorem filter_not_match_append (l : List GoingRow) (pid uid : String)
    (h0 : l.filter (fun r => r.1 == pid && r.2 == uid) = []) :
    (l ++ [(pid, uid)]).filter (fun r => !(r.1 == pid && r.2 == uid)) = l := by
  rw [List.filter_append]
  have h1 : l.filter (fun r => !(r.1 == pid && r.2 == uid)) = l :=
    List.filter_eq_self.mpr (fun a ha => by
      have hno := List.filter_eq_nil_iff.mp h0 a ha
      cases hval : (a.1 == pid && a.2 == uid) with
      | true => exact absurd hval hno
      | false => rfl)
  rw [h1]
  simp

theorem filter_match_after_delete (l : List GoingRow) (pid uid : String) :
    (l.filter (fun r => !(r.1 == pid && r.2 == uid))).filter
        (fun r => r.1 == pid && r.2 == uid) = [] := by
  rw [List.filter_filter]
  apply List.filter_eq_nil_iff.mpr
  intro a _
  cases hval : (a.1 == pid && a.2 == uid) <;> simp [hval]

/-! ## Claim theorems -/

/-- Claim C1: whenever `toggle_going` completes successfully, the stored
denormalized counter of the listing equals the cardinality of the
`party_going` roster for that listing in the resulting store, is never
negative, and is the value freshly recomputed from the roster (the
response carries that same authoritative value). -/
theorem toggle_going_count_invariant (db : DB) (pid uid : String) (r : ToggleResponse)
    (h : (toggle_going db pid uid).2 = Except.ok r) :
    ∃ q, getParty (toggle_going db pid uid).1 pid = some q
      ∧ q.going_count = (rosterCount (toggle_going db pid uid).1 pid : Int)
      ∧ 0 ≤ q.going_count
      ∧ r.goingCount = q.going_count := by
  cases he : (selectParties db pid).isEmpty with
  | true =>
    exfalso
    unfold toggle_going at h
    rw [he] at h
    simp at h
  | false =>
    have hres : toggle_going db pid uid
        = (updateGoingCount
            (if isMember db pid uid then deleteGoing db pid uid else insertGoing db pid uid) pid
            ((rosterCount
              (if isMember db pid uid then deleteGoing db pid uid else insertGoing db pid uid)
              pid : Int)),
           Except.ok ⟨!(isMember db pid uid),
            (rosterCount
              (if isMember db pid uid then deleteGoing db pid uid else insertGoing db pid uid)
              pid : Int)⟩) := by
      unfold toggle_going
      rw [he]
      simp
    obtain ⟨p, hp⟩ := getParty_of_not_isEmpty he
    have hp1 : getParty
        (if isMember db pid uid then deleteGoing db pid uid else insertGoing db pid uid) pid
        = some p := by
      cases hm : isMember db pid uid <;> simpa [hm] using hp
    have hr : r = ⟨!(isMember db pid uid),
        (rosterCount
          (if isMember db pid uid then deleteGoing db pid uid else insertGoing db pid uid)
          pid : Int)⟩ := by
      rw [hres] at h
      exact (Except.ok.injEq _ _ |>.mp h).symm
    refine ⟨{ p with going_count :=
        (rosterCount
          (if isMember db pid uid then deleteGoing db pid uid else insertGoing db pid uid)
          pid : Int) }, ?_, ?_, ?_, ?_⟩
    · rw [hres]
      rw [getParty_updateGoingCount, hp1]
      rfl
    · rw [hres]
      rfl
    · exact Int.natCast_nonneg _
    · rw [hr]

/-- Witness for C1: toggling attendance on `sampleDB` yields a stored
counter equal to the roster cardinality 1. -/
theorem toggle_going_count_invariant_witness :
    ∃ q, getParty (toggle_going sampleDB "p1" "u1").1 "p1" = some q
      ∧ q.going_count = (rosterCount (toggle_going sampleDB "p1" "u1").1 "p1" : Int)
      ∧ 0 ≤ q.going_count
      ∧ ToggleResponse.goingCount ⟨true, 1⟩ = q.going_count :=
  toggle_going_count_invariant sampleDB "p1" "u1" ⟨true, 1⟩ rfl

/-- Claim C8: `delete_party` fails with 404 when the listing is absent;
fails with 403 and leaves the store untouched when the caller is not the
creator (whatever the listing's status is); and deletes the listing
exactly when the caller is the creator. -/
theorem delete_party_spec (db : DB) (pid uid : String) :
    (getParty db pid = none →
        delete_party db pid uid = (db, Except.error ⟨404, "Party not found"⟩))
    ∧ (∀ q, getParty db pid = some q → q.created_by ≠ uid →
        delete_party db pid uid = (db, Except.error ⟨403, "You can only delete your own parties"⟩))
    ∧ (∀ q, getParty db pid = some q → q.created_by = uid →
        (delete_party db pid uid).2 = Except.ok "Party deleted"
        ∧ getParty (delete_party db pid uid).1 pid = none) := by
  refine ⟨fun h => by simp [delete_party, h], fun q hq hne => by simp [delete_party, hq, hne],
    fun q hq heq => ⟨by simp [delete_party, hq, heq], ?_⟩⟩
  have : (delete_party db pid uid).1 = deletePartyRow db pid := by
    simp [delete_party, hq, heq]
  rw [this, getParty_deletePartyRow]

/-- Witness for C8: on `sampleDB`, a stranger's delete fails with 403 and
changes nothing, a delete of a missing id fails with 404, and the
creator's delete removes the listing. -/
theorem delete_party_spec_witness :
    (delete_party sampleDB "p1" "u2"
      = (sampleDB, Except.error ⟨403, "You can only delete your own parties"⟩))
    ∧ (delete_party sampleDB "nope" "u1" = (sampleDB, Except.error ⟨404, "Party not found"⟩))
    ∧ getParty (delete_party sampleDB "p1" "u1").1 "p1" = none :=
  ⟨(delete_party_spec sampleDB "p1" "u2").2.1 sampleParty rfl (by decide),
   (delete_party_spec sampleDB "nope" "u1").1 rfl,
   ((delete_party_spec sampleDB "p1" "u1").2.2 sampleParty rfl rfl).2⟩

/-- Claim C9: the anonymous increment on an existing listing stores
`rosterCount + max 0 (storedCounter - rosterCount) + 1` (floor plus prior
anonymous excess plus one); on a missing listing it fails with 404 and
writes nothing. -/
theorem increment_going_anonymous_spec (db : DB) (pid : String) :
    (getParty db pid = none →
        increment_going_anonymous db pid = (db, Except.error ⟨404, "Party not found"⟩))
    ∧ (∀ p, getParty db pid = some p →
        (increment_going_anonymous db pid).2
          = Except.ok ⟨true,
              (rosterCount db pid : Int) + max 0 (p.going_count - (rosterCount db pid : Int)) + 1⟩
        ∧ getParty (increment_going_anonymous db pid).1 pid
          = some { p with going_count :=
              (rosterCount db pid : Int) + max 0 (p.going_count - (rosterCount db pid : Int)) + 1 }) := by
  refine ⟨fun h => by simp [increment_going_anonymous, h], fun p hp => ⟨?_, ?_⟩⟩
  · simp [increment_going_anonymous, hp]
  · have : (increment_going_anonymous db pid).1
        = updateGoingCount db pid
            ((rosterCount db pid : Int) + max 0 (p.going_count - (rosterCount db pid : Int)) + 1) := by
      simp [increment_going_anonymous, hp]
    rw [this, getParty_updateGoingCount, hp]
    rfl

/-- Witness for C9: on `sampleDB` (empty roster, stored counter 0) the
anonymous increment stores 0 + 0 + 1 = 1. -/
theorem increment_going_anonymous_spec_witness :
    (increment_going_anonymous sampleDB "p1").2
      = Except.ok ⟨true,
          (rosterCount sampleDB "p1" : Int)
            + max 0 (Party.going_count sampleParty - (rosterCount sampleDB "p1" : Int)) + 1⟩
    ∧ getParty (increment_going_anonymous sampleDB "p1").1 "p1"
      = some { sampleParty with going_count :=
          ((rosterCount sampleDB "p1" : Int)
            + max 0 (Party.going_count sampleParty - (rosterCount sampleDB "p1" : Int)) + 1) } :=
  (increment_going_anonymous_spec sampleDB "p1").2 sampleParty rfl

/-- Claim C10: a successful `delete_party` touches only the `parties`
table: the `party_going` roster is left exactly as it was, and the
`parties` table loses precisely the rows with the deleted id. -/
theorem delete_party_frame (db : DB) (pid uid : String) (db2 : DB) (m : String)
    (h : delete_party db pid uid = (db2, Except.ok m)) :
    db2.party_going = db.party_going
    ∧ db2.parties = db.parties.filter (fun q => !(q.id == pid)) := by
  unfold delete_party at h
  cases hq : getParty db pid with
  | none =>
    rw [hq] at h
    simp at h
  | some party =>
    rw [hq] at h
    by_cases hc : party.created_by = uid
    · simp only [hc, bne_self_eq_false, Bool.false_eq_true, if_false] at h
      obtain ⟨h1, _⟩ := Prod.mk.injEq _ _ _ _ |>.mp h
      rw [← h1]
      exact ⟨rfl, rfl⟩
    · simp [hc] at h

/-- Witness for C10: the creator's delete on `sampleDB` leaves the roster
unchanged and filters the listing out of `parties`. -/
theorem delete_party_frame_witness :
    (delete_party sampleDB "p1" "u1").1.party_going = sampleDB.party_going
    ∧ (delete_party sampleDB "p1" "u1").1.parties
      = sampleDB.parties.filter (fun q => !(q.id == "p1")) :=
  delete_party_frame sampleDB "p1" "u1" (delete_party sampleDB "p1" "u1").1 "Party deleted" rfl

/-- Claim C6: the weekend anchor computed by `get_current_weekend` is the
Friday of the current week (today plus the days until Friday, 0 on a
Friday) when today is Monday through Friday, and the Friday 1 or 2 days in
the past (never a future Friday) when today is Saturday or Sunday; the
anchor is always a Friday. -/
theorem get_current_weekend_spec (today : Int) :
    (weekday today ≤ 4 → get_current_weekend today = today + (4 - weekday today))
    ∧ (weekday today = 5 → get_current_weekend today = today - 1)
    ∧ (weekday today = 6 → get_current_weekend today = today - 2)
    ∧ weekday (get_current_weekend today) = 4 := by
  simp only [get_current_weekend, weekday]
  split_ifs with h <;> omega

/-- Witness for C6: Monday 0001-01-01 (ordinal 1) anchors to the Friday
four days later. -/
theorem get_current_weekend_spec_witness :
    weekday 1 ≤ 4 ∧ get_current_weekend 1 = 1 + (4 - weekday 1) :=
  ⟨by decide, (get_current_weekend_spec 1).1 (by decide)⟩

/-- Claim C5: `signup` proceeds (the lowercased email is handed to the
identity oracle) exactly when the lowercased email has the institutional
domain `"@temple.edu"` as an exact suffix; in every other case it fails
with a 400 error before any call to the identity service. -/
theorem signup_spec (email : String) :
    ((∃ r, signup email = Except.ok r)
      ↔ ∃ pre : String, pyLower email = pre ++ "@temple.edu")
    ∧ ((∀ r, signup email ≠ Except.ok r) →
        signup email = Except.error ⟨400, "Only @temple.edu email addresses are allowed"⟩) := by
  cases hb : ("@temple.edu" : String).data.isSuffixOf (pyLower email).data with
  | true =>
    have hok : signup email = Except.ok (pyLower email) := by
      simp [signup, pyEndsWith, hb]
    constructor
    · constructor
      · intro _
        rw [List.isSuffixOf_iff_suffix] at hb
        obtain ⟨t, ht⟩ := hb
        refine ⟨⟨t⟩, data_eq_imp ?_⟩
        rw [String.data_append]
        exact ht.symm
      · intro _
        exact ⟨pyLower email, hok⟩
    · intro hno
      exact absurd hok (hno (pyLower email))
  | false =>
    have herr : signup email
        = Except.error ⟨400, "Only @temple.edu email addresses are allowed"⟩ := by
      simp [signup, pyEndsWith, hb]
    refine ⟨⟨fun hex => ?_, fun hex => ?_⟩, fun _ => herr⟩
    · obtain ⟨r, hr⟩ := hex
      rw [herr] at hr
      exact Except.noConfusion hr
    · obtain ⟨pre, hpre⟩ := hex
      rw [Bool.eq_false_iff, Ne, List.isSuffixOf_iff_suffix] at hb
      exact absurd ⟨pre.data, by rw [← String.data_append, ← hpre]⟩ hb

/-- Witness for C5: a mixed-case institutional email is accepted. -/
theorem signup_spec_witness :
    ∃ r, signup "Student@TEMPLE.edu" = Except.ok r :=
  (signup_spec "Student@TEMPLE.edu").1.mpr ⟨"student", by decide⟩

/-- Claim C3 (code bug evidence): the `set_username` handler accepts the
whitespace-only username `"   "` (whose trimmed length is 0) and accepts a
51-character username, because the code neither trims nor enforces the
upper bound of 50 required by the specification and by the repository's
own tests. -/
theorem set_username_accepts_untrimmed_and_overlong :
    ((set_username [] "user-1" (parseUserUpdate ⟨"   ", some true⟩)).2 = Except.ok "   ")
    ∧ pyStrip "   " = ""
    ∧ ((set_username [] "user-1" ⟨"aaaaaaaaaaaaaaaaaaaaaaaaaaaaaaaaaaaaaaaaaaaaaaaaaaa"⟩).2
        = Except.ok "aaaaaaaaaaaaaaaaaaaaaaaaaaaaaaaaaaaaaaaaaaaaaaaaaaa")
    ∧ ("aaaaaaaaaaaaaaaaaaaaaaaaaaaaaaaaaaaaaaaaaaaaaaaaaaa" : String).length = 51 := by
  refine ⟨rfl, by decide, rfl, by decide⟩

theorem approve_party_not_pending (db : DB) (pid : String) (q : Party)
    (hq : getParty db pid = some q) (hne : q.status ≠ "pending") :
    approve_party db pid = (db, Except.error ⟨400, "Party is not pending"⟩) := by
  simp [approve_party, hq, hne]

theorem reject_party_not_pending (db : DB) (pid : String) (q : Party)
    (hq : getParty db pid = some q) (hne : q.status ≠ "pending") :
    reject_party db pid = (db, Except.error ⟨400, "Party is not pending"⟩) := by
  simp [reject_party, hq, hne]

/-- Claim C2: on an existing listing, with the documented roster invariant
(at most one row per (listing, user) pair), toggling attendance twice in
immediate succession from the same user succeeds both times, restores the
(listing, user) membership to its original state, restores the roster
cardinality, and stores the original authoritative count (the roster
cardinality before the first call) in the listing's counter. -/
theorem toggle_going_twice (db : DB) (pid uid : String) (p : Party)
    (hnd : db.party_going.Nodup) (hp : getParty db pid = some p) :
    ∃ r1 r2,
      (toggle_going db pid uid).2 = Except.ok r1
      ∧ (toggle_going (toggle_going db pid uid).1 pid uid).2 = Except.ok r2
      ∧ isMember (toggle_going (toggle_going db pid uid).1 pid uid).1 pid uid
          = isMember db pid uid
      ∧ rosterCount (toggle_going (toggle_going db pid uid).1 pid uid).1 pid
          = rosterCount db pid
      ∧ getParty (toggle_going (toggle_going db pid uid).1 pid uid).1 pid
          = some { p with going_count := (rosterCount db pid : Int) }
      ∧ r1.going = !(isMember db pid uid)
      ∧ r2.going = isMember db pid uid := by
  have he : (selectParties db pid).isEmpty = false := isEmpty_of_getParty hp
  cases hm : isMember db pid uid with
  | false =>
    have h0 : db.party_going.filter (fun r => r.1 == pid && r.2 == uid) = [] :=
      goingRows_eq_nil hm
    have hres1 : toggle_going db pid uid
        = (updateGoingCount (insertGoing db pid uid) pid
            ((rosterCount (insertGoing db pid uid) pid : Int)),
           Except.ok ⟨true, (rosterCount (insertGoing db pid uid) pid : Int)⟩) := by
      simp [toggle_going, he, hm]
    have hpA : getParty (insertGoing db pid uid) pid = some p := hp
    have hg1 : getParty (updateGoingCount (insertGoing db pid uid) pid
        ((rosterCount (insertGoing db pid uid) pid : Int))) pid
        = some { p with going_count := (rosterCount (insertGoing db pid uid) pid : Int) } := by
      rw [getParty_updateGoingCount, hpA]
      rfl
    have he1 : (selectParties (updateGoingCount (insertGoing db pid uid) pid
        ((rosterCount (insertGoing db pid uid) pid : Int))) pid).isEmpty = false :=
      isEmpty_of_getParty hg1
    have hD1pg : (updateGoingCount (insertGoing db pid uid) pid
        ((rosterCount (insertGoing db pid uid) pid : Int))).party_going
        = db.party_going ++ [(pid, uid)] := rfl
    have hm1 : isMember (updateGoingCount (insertGoing db pid uid) pid
        ((rosterCount (insertGoing db pid uid) pid : Int))) pid uid = true := by
      unfold isMember goingRows
      rw [hD1pg, List.filter_append, h0]
      simp
    have hres2 : toggle_going (updateGoingCount (insertGoing db pid uid) pid
        ((rosterCount (insertGoing db pid uid) pid : Int))) pid uid
        = (updateGoingCount
            (deleteGoing (updateGoingCount (insertGoing db pid uid) pid
              ((rosterCount (insertGoing db pid uid) pid : Int))) pid uid) pid
            ((rosterCount
              (deleteGoing (updateGoingCount (insertGoing db pid uid) pid
                ((rosterCount (insertGoing db pid uid) pid : Int))) pid uid) pid : Int)),
           Except.ok ⟨false,
            (rosterCount
              (deleteGoing (updateGoingCount (insertGoing db pid uid) pid
                ((rosterCount (insertGoing db pid uid) pid : Int))) pid uid) pid : Int)⟩) := by
      simp [toggle_going, he1, hm1]
    have hB : (deleteGoing (updateGoingCount (insertGoing db pid uid) pid
        ((rosterCount (insertGoing db pid uid) pid : Int))) pid uid).party_going
        = db.party_going := by
      show (db.party_going ++ [(pid, uid)]).filter (fun r => !(r.1 == pid && r.2 == uid))
        = db.party_going
      exact filter_not_match_append db.party_going pid uid h0
    have hD2pg : (updateGoingCount
        (deleteGoing (updateGoingCount (insertGoing db pid uid) pid
          ((rosterCount (insertGoing db pid uid) pid : Int))) pid uid) pid
        ((rosterCount
          (deleteGoing (updateGoingCount (insertGoing db pid uid) pid
            ((rosterCount (insertGoing db pid uid) pid : Int))) pid uid) pid : Int))).party_going
        = db.party_going := hB
    have hc2 : rosterCount (deleteGoing (updateGoingCount (insertGoing db pid uid) pid
        ((rosterCount (insertGoing db pid uid) pid : Int))) pid uid) pid
        = rosterCount db pid := rosterCount_congr hB pid
    have hgB : getParty (deleteGoing (updateGoingCount (insertGoing db pid uid) pid
        ((rosterCount (insertGoing db pid uid) pid : Int))) pid uid) pid
        = some { p with going_count := (rosterCount (insertGoing db pid uid) pid : Int) } := hg1
    refine ⟨⟨true, (rosterCount (insertGoing db pid uid) pid : Int)⟩,
      ⟨false, (rosterCount
        (deleteGoing (updateGoingCount (insertGoing db pid uid) pid
          ((rosterCount (insertGoing db pid uid) pid : Int))) pid uid) pid : Int)⟩,
      ?_, ?_, ?_, ?_, ?_, ?_, ?_⟩
    · rw [hres1]
    · rw [hres1]
      exact congrArg Prod.snd hres2
    · rw [hres1]
      show isMember (toggle_going (updateGoingCount (insertGoing db pid uid) pid
        ((rosterCount (insertGoing db pid uid) pid : Int))) pid uid).1 pid uid = false
      rw [hres2]
      exact (isMember_congr hD2pg pid uid).trans hm
    · rw [hres1]
      show rosterCount (toggle_going (updateGoingCount (insertGoing db pid uid) pid
        ((rosterCount (insertGoing db pid uid) pid : Int))) pid uid).1 pid = rosterCount db pid
      rw [hres2]
      exact rosterCount_congr hD2pg pid
    · rw [hres1]
      show getParty (toggle_going (updateGoingCount (insertGoing db pid uid) pid
        ((rosterCount (insertGoing db pid uid) pid : Int))) pid uid).1 pid
        = some { p with going_count := (rosterCount db pid : Int) }
      rw [hres2]
      show getParty (updateGoingCount
        (deleteGoing (updateGoingCount (insertGoing db pid uid) pid
          ((rosterCount (insertGoing db pid uid) pid : Int))) pid uid) pid
        ((rosterCount
          (deleteGoing (updateGoingCount (insertGoing db pid uid) pid
            ((rosterCount (insertGoing db pid uid) pid : Int))) pid uid) pid : Int))) pid
        = some { p with going_count := (rosterCount db pid : Int) }
      rw [getParty_updateGoingCount, hgB, hc2]
      rfl
    · rfl
    · rfl
  | true =>
    have h1 : db.party_going.filter (fun r => r.1 == pid && r.2 == uid) = [(pid, uid)] :=
      goingRows_singleton hnd hm
    have hres1 : toggle_going db pid uid
        = (updateGoingCount (deleteGoing db pid uid) pid
            ((rosterCount (deleteGoing db pid uid) pid : Int)),
           Except.ok ⟨false, (rosterCount (deleteGoing db pid uid) pid : Int)⟩) := by
      simp [toggle_going, he, hm]
    have hpA : getParty (deleteGoing db pid uid) pid = some p := hp
    have hg1 : getParty (updateGoingCount (deleteGoing db pid uid) pid
        ((rosterCount (deleteGoing db pid uid) pid : Int))) pid
        = some { p with going_count := (rosterCount (deleteGoing db pid uid) pid : Int) } := by
      rw [getParty_updateGoingCount, hpA]
      rfl
    have he1 : (selectParties (updateGoingCount (deleteGoing db pid uid) pid
        ((rosterCount (deleteGoing db pid uid) pid : Int))) pid).isEmpty = false :=
      isEmpty_of_getParty hg1
    have hD1pg : (updateGoingCount (deleteGoing db pid uid) pid
        ((rosterCount (deleteGoing db pid uid) pid : Int))).party_going
        = db.party_going.filter (fun r => !(r.1 == pid && r.2 == uid)) := rfl
    have hm1 : isMember (updateGoingCount (deleteGoing db pid uid) pid
        ((rosterCount (deleteGoing db pid uid) pid : Int))) pid uid = false := by
      unfold isMember goingRows
      rw [hD1pg, filter_match_after_delete]
      rfl
    have hres2 : toggle_going (updateGoingCount (deleteGoing db pid uid) pid
        ((rosterCount (deleteGoing db pid uid) pid : Int))) pid uid
        = (updateGoingCount
            (insertGoing (updateGoingCount (deleteGoing db pid uid) pid
              ((rosterCount (deleteGoing db pid uid) pid : Int))) pid uid) pid
            ((rosterCount
              (insertGoing (updateGoingCount (deleteGoing db pid uid) pid
                ((rosterCount (deleteGoing db pid uid) pid : Int))) pid uid) pid : Int)),
           Except.ok ⟨true,
            (rosterCount
              (insertGoing (updateGoingCount (deleteGoing db pid uid) pid
                ((rosterCount (deleteGoing db pid uid) pid : Int))) pid uid) pid : Int)⟩) := by
      simp [toggle_going, he1, hm1]
    have hBpg : (insertGoing (updateGoingCount (deleteGoing db pid uid) pid
        ((rosterCount (deleteGoing db pid uid) pid : Int))) pid uid).party_going
        = db.party_going.filter (fun r => !(r.1 == pid && r.2 == uid)) ++ [(pid, uid)] := rfl
    have hone : (db.party_going.filter (fun r => r.1 == pid && r.2 == uid)).length = 1 := by
      rw [h1]
      rfl
    have hsplit := length_filter_split db.party_going pid uid
    have hc2 : rosterCount (insertGoing (updateGoingCount (deleteGoing db pid uid) pid
        ((rosterCount (deleteGoing db pid uid) pid : Int))) pid uid) pid
        = rosterCount db pid := by
      show ((db.party_going.filter (fun r => !(r.1 == pid && r.2 == uid))
          ++ [(pid, uid)]).filter (fun r => r.1 == pid)).length
        = (db.party_going.filter (fun r => r.1 == pid)).length
      rw [List.filter_append]
      simp only [List.length_append]
      have hsingle : (([(pid, uid)] : List GoingRow).filter (fun r => r.1 == pid)).length = 1 := by
        simp
      rw [hsingle]
      omega
    have hD2pg : (updateGoingCount
        (insertGoing (updateGoingCount (deleteGoing db pid uid) pid
          ((rosterCount (deleteGoing db pid uid) pid : Int))) pid uid) pid
        ((rosterCount
          (insertGoing (updateGoingCount (deleteGoing db pid uid) pid
            ((rosterCount (deleteGoing db pid uid) pid : Int))) pid uid) pid : Int))).party_going
        = db.party_going.filter (fun r => !(r.1 == pid && r.2 == uid)) ++ [(pid, uid)] := hBpg
    have hgB : getParty (insertGoing (updateGoingCount (deleteGoing db pid uid) pid
        ((rosterCount (deleteGoing db pid uid) pid : Int))) pid uid) pid
        = some { p with going_count := (rosterCount (deleteGoing db pid uid) pid : Int) } := hg1
    refine ⟨⟨false, (rosterCount (deleteGoing db pid uid) pid : Int)⟩,
      ⟨true, (rosterCount
        (insertGoing (updateGoingCount (deleteGoing db pid uid) pid
          ((rosterCount (deleteGoing db pid uid) pid : Int))) pid uid) pid : Int)⟩,
      ?_, ?_, ?_, ?_, ?_, ?_, ?_⟩
    · rw [hres1]
    · rw [hres1]
      exact congrArg Prod.snd hres2
    · rw [hres1]
      show isMember (toggle_going (updateGoingCount (deleteGoing db pid uid) pid
        ((rosterCount (deleteGoing db pid uid) pid : Int))) pid uid).1 pid uid = true
      rw [hres2]
      have hfin : isMember (updateGoingCount
          (insertGoing (updateGoingCount (deleteGoing db pid uid) pid
            ((rosterCount (deleteGoing db pid uid) pid : Int))) pid uid) pid
          ((rosterCount
            (insertGoing (updateGoingCount (deleteGoing db pid uid) pid
              ((rosterCount (deleteGoing db pid uid) pid : Int))) pid uid) pid : Int))) pid uid
          = true := by
        unfold isMember goingRows
        rw [hD2pg, List.filter_append, filter_match_after_delete]
        simp
      exact hfin
    · rw [hres1]
      show rosterCount (toggle_going (updateGoingCount (deleteGoing db pid uid) pid
        ((rosterCount (deleteGoing db pid uid) pid : Int))) pid uid).1 pid = rosterCount db pid
      rw [hres2]
      exact hc2
    · rw [hres1]
      show getParty (toggle_going (updateGoingCount (deleteGoing db pid uid) pid
        ((rosterCount (deleteGoing db pid uid) pid : Int))) pid uid).1 pid
        = some { p with going_count := (rosterCount db pid : Int) }
      rw [hres2]
      show getParty (updateGoingCount
        (insertGoing (updateGoingCount (deleteGoing db pid uid) pid
          ((rosterCount (deleteGoing db pid uid) pid : Int))) pid uid) pid
        ((rosterCount
          (insertGoing (updateGoingCount (deleteGoing db pid uid) pid
            ((rosterCount (deleteGoing db pid uid) pid : Int))) pid uid) pid : Int))) pid
        = some { p with going_count := (rosterCount db pid : Int) }
      rw [getParty_updateGoingCount, hgB, hc2]
      rfl
    · rfl
    · rfl

/-- Witness for C2: toggling twice on `sampleDB` (empty, duplicate-free
roster) restores non-membership and the counter value 0. -/
theorem toggle_going_twice_witness :
    ∃ r1 r2,
      (toggle_going sampleDB "p1" "u1").2 = Except.ok r1
      ∧ (toggle_going (toggle_going sampleDB "p1" "u1").1 "p1" "u1").2 = Except.ok r2
      ∧ isMember (toggle_going (toggle_going sampleDB "p1" "u1").1 "p1" "u1").1 "p1" "u1"
          = isMember sampleDB "p1" "u1"
      ∧ rosterCount (toggle_going (toggle_going sampleDB "p1" "u1").1 "p1" "u1").1 "p1"
          = rosterCount sampleDB "p1"
      ∧ getParty (toggle_going (toggle_going sampleDB "p1" "u1").1 "p1" "u1").1 "p1"
          = some { sampleParty with going_count := (rosterCount sampleDB "p1" : Int) }
      ∧ r1.going = !(isMember sampleDB "p1" "u1")
      ∧ r2.going = isMember sampleDB "p1" "u1" :=
  toggle_going_twice sampleDB "p1" "u1" sampleParty List.nodup_nil rfl

/-- Claim C4: moderation moves a listing out of `pending` at most once and
both targets are terminal: `approve` and `reject` fail with 404 on a
missing listing and with a 400 "not pending" error on any non-pending
listing; on a pending listing each performs its single transition, after
which every further `approve`/`reject` fails with the 400 error. -/
theorem moderation_spec (db : DB) (pid : String) :
    (getParty db pid = none →
        approve_party db pid = (db, Except.error ⟨404, "Party not found"⟩)
        ∧ reject_party db pid = (db, Except.error ⟨404, "Party not found"⟩))
    ∧ (∀ p, getParty db pid = some p → p.status ≠ "pending" →
        approve_party db pid = (db, Except.error ⟨400, "Party is not pending"⟩)
        ∧ reject_party db pid = (db, Except.error ⟨400, "Party is not pending"⟩))
    ∧ (∀ p, getParty db pid = some p → p.status = "pending" →
        (approve_party db pid).2 = Except.ok "Party approved"
        ∧ getParty (approve_party db pid).1 pid = some { p with status := "approved" }
        ∧ (reject_party db pid).2 = Except.ok "Party rejected"
        ∧ getParty (reject_party db pid).1 pid = some { p with status := "rejected" }
        ∧ (approve_party (approve_party db pid).1 pid).2 = Except.error ⟨400, "Party is not pending"⟩
        ∧ (reject_party (approve_party db pid).1 pid).2 = Except.error ⟨400, "Party is not pending"⟩
        ∧ (approve_party (reject_party db pid).1 pid).2 = Except.error ⟨400, "Party is not pending"⟩
        ∧ (reject_party (reject_party db pid).1 pid).2
            = Except.error ⟨400, "Party is not pending"⟩) := by
  refine ⟨fun h => ⟨by simp [approve_party, h], by simp [reject_party, h]⟩,
    fun p hp hne => ⟨by simp [approve_party, hp, hne], by simp [reject_party, hp, hne]⟩,
    fun p hp hpend => ?_⟩
  have ha1 : (approve_party db pid).1 = updateStatus db pid "approved" := by
    simp [approve_party, hp, hpend]
  have hr1 : (reject_party db pid).1 = updateStatus db pid "rejected" := by
    simp [reject_party, hp, hpend]
  have hga : getParty (approve_party db pid).1 pid = some { p with status := "approved" } := by
    rw [ha1, getParty_updateStatus, hp]; rfl
  have hgr : getParty (reject_party db pid).1 pid = some { p with status := "rejected" } := by
    rw [hr1, getParty_updateStatus, hp]; rfl
  refine ⟨by simp [approve_party, hp, hpend], hga, by simp [reject_party, hp, hpend], hgr,
    ?_, ?_, ?_, ?_⟩
  · rw [approve_party_not_pending _ _ _ hga (by simp)]
  · rw [reject_party_not_pending _ _ _ hga (by simp)]
  · rw [approve_party_not_pending _ _ _ hgr (by simp)]
  · rw [reject_party_not_pending _ _ _ hgr (by simp)]

/-- Witness for C4: the pending listing `p2` of `sampleDB` is approved or
rejected once, and every second moderation call fails with 400. -/
theorem moderation_spec_witness :
    (approve_party sampleDB "p2").2 = Except.ok "Party approved"
    ∧ getParty (approve_party sampleDB "p2").1 "p2" = some { pendingParty with status := "approved" }
    ∧ (reject_party sampleDB "p2").2 = Except.ok "Party rejected"
    ∧ getParty (reject_party sampleDB "p2").1 "p2" = some { pendingParty with status := "rejected" }
    ∧ (approve_party (approve_party sampleDB "p2").1 "p2").2
        = Except.error ⟨400, "Party is not pending"⟩
    ∧ (reject_party (approve_party sampleDB "p2").1 "p2").2
        = Except.error ⟨400, "Party is not pending"⟩
    ∧ (approve_party (reject_party sampleDB "p2").1 "p2").2
        = Except.error ⟨400, "Party is not pending"⟩
    ∧ (reject_party (reject_party sampleDB "p2").1 "p2").2
        = Except.error ⟨400, "Party is not pending"⟩ :=
  (moderation_spec sampleDB "p2").2.2 pendingParty rfl rfl

/-- Claim C7: the profile persisted by `set_username` is independent of any
client-supplied admin field (pydantic drops it at parse time); a newly
created profile always gets `is_admin := false`, and an update rewrites
only the username, preserving every stored `(id, is_admin)` pair. -/
theorem set_username_admin_spec (profiles : List UserProfile) (uid : String)
    (raw : RawSetUsernameBody) :
    (∀ b, set_username profiles uid (parseUserUpdate ⟨raw.username, b⟩)
        = set_username profiles uid (parseUserUpdate raw))
    ∧ ((profiles.filter (fun p => p.id == uid)).isEmpty = true → 2 ≤ raw.username.length →
        (set_username profiles uid (parseUserUpdate raw)).1
          = profiles ++ [{ id := uid, username := raw.username, is_admin := false }])
    ∧ ((profiles.filter (fun p => p.id == uid)).isEmpty = false →
        (set_username profiles uid (parseUserUpdate raw)).1.map (fun p => (p.id, p.is_admin))
          = profiles.map (fun p => (p.id, p.is_admin))) := by
  refine ⟨fun _ => rfl, fun he hlen => ?_, fun he => ?_⟩
  · have h2 : ¬ (raw.username.length < 2) := by omega
    simp [set_username, parseUserUpdate, h2, he]
  · by_cases hlen : raw.username.length < 2
    · simp [set_username, parseUserUpdate, hlen]
    · simp only [set_username, parseUserUpdate, hlen, if_false, he, Bool.not_false, if_true]
      rw [List.map_map]
      refine List.map_congr_left ?_
      intro a _
      by_cases ha : a.id = uid <;> simp [ha]

/-- Witness for C7: creating a profile ignores the client's
`is_admin := true` and stores `false`; updating a profile whose stored
flag is `true` leaves the flag `true`. -/
theorem set_username_admin_spec_witness :
    ((set_username [] "u9" (parseUserUpdate ⟨"alice", some true⟩)).1
      = [] ++ [{ id := "u9", username := "alice", is_admin := false }])
    ∧ ((set_username [{ id := "u9", username := "old", is_admin := true }] "u9"
          (parseUserUpdate ⟨"alice", some false⟩)).1.map (fun p => (p.id, p.is_admin))
      = [({ id := "u9", username := "old", is_admin := true } : UserProfile)].map
          (fun p => (p.id, p.is_admin))) :=
  ⟨(set_username_admin_spec [] "u9" ⟨"alice", some true⟩).2.1 rfl (by decide),
   (set_username_admin_spec [{ id := "u9", username := "old", is_admin := true }] "u9"
      ⟨"alice", some false⟩).2.2 rfl⟩

end TempleParties
